import Mathlib

/-
Verification of the Nationdex promocode store
(src/ballsdex/packages/promocode/active.py).

Shallow-embedding conventions:
* Timestamps (datetime values and time.time results) are modelled as Int
  epoch seconds.  An ISO-8601 string produced by isoformat parses back to
  the same instant, so a time value in memory is one of:
  dt t (a datetime object), iso t (an ISO string parsing to t), or bad
  (a string or other value that fromisoformat rejects or that is not a
  time at all).
* The global dict ACTIVE_PROMOCODES is an association list
  List (String x Promo); Python dict lookup, assignment, and del are the
  first-occurrence operations alookup, ainsert, aerase below (keys of a
  Python dict are unique, so first occurrence is the occurrence).
* Python sets of user ids are carried as lists of Int; set.remove is
  modelled as filtering out every copy, which agrees with set semantics.
* File-system outcomes are oracles: the save_promocodes_to_file call made
  by each mutator is abstracted into a Bool parameter flushOk (true means
  the flush succeeded), and the archive-file writes of delete and clean
  are modelled as succeeding.  The advisory-lock and permission branches
  of the source are collapsed into those oracles.
* The source guards every operation with a load-if-empty preamble
  (if not ACTIVE_PROMOCODES: load...).  Mutator theorems below carry a
  hypothesis that the target code is present, which forces the store to
  be nonempty, so the preamble is the identity there and is not threaded
  through the mutator definitions.  load_promocodes_from_file itself is
  modelled in full, including its cache window.
* uses_left is stored by the source as a Python int in every reachable
  state (the loader coerces via int(), create validates, the mutators do
  integer arithmetic), so the record field is Option Int, none standing
  for an absent key; the defensive int() coercions of is_valid_promocode
  for non-int values are dead for states this module can produce and are
  not modelled.  max_uses_per_user is likewise always an int and always
  present after load or create, so it is a plain Int field.
-/

/-- Association-list lookup: the value of the first pair with the given
key, mirroring Python dict access. -/
def alookup {β : Type} : List (String × β) → String → Option β
  | [], _ => none
  | (k, v) :: rest, c => if k = c then some v else alookup rest c

/-- Replace the value of the first pair with the given key. -/
def areplace {β : Type} : List (String × β) → String → β → List (String × β)
  | [], _, _ => []
  | (k, v) :: rest, c, w => if k = c then (k, w) :: rest else (k, v) :: areplace rest c w

/-- Remove the first pair with the given key, mirroring Python del. -/
def aerase {β : Type} : List (String × β) → String → List (String × β)
  | [], _ => []
  | (k, v) :: rest, c => if k = c then rest else (k, v) :: aerase rest c

/-- Python dict assignment: replace the existing binding if the key is
present, otherwise append a new binding at the end. -/
def ainsert {β : Type} (l : List (String × β)) (c : String) (v : β) : List (String × β) :=
  if (alookup l c).isSome then areplace l c v else l ++ [(c, v)]

/-- The default expiry date used throughout the source,
datetime(2024, 12, 31, tzinfo=timezone.utc), as epoch seconds. -/
def DEFAULT_EXPIRY : Int := 1735603200

/-- The cache window CACHE_EXPIRY of the source, in seconds. -/
def CACHE_EXPIRY : Int := 300

/-- A time-like value held in a record field. -/
inductive TimeV
  /-- A datetime object for instant t. -/
  | dt (t : Int)
  /-- An ISO-8601 string that fromisoformat parses to instant t. -/
  | iso (t : Int)
  /-- A string fromisoformat rejects, or a non-time value. -/
  | bad
deriving DecidableEq, Repr

/-- The rewards dictionary: specific_ball and special, each nullable.
Extra custom reward keys are not modelled; no claim depends on them. -/
structure Rewards where
  specific_ball : Option Int := none
  special : Option Int := none
deriving DecidableEq, Repr

/-- The default rewards value used by the source. -/
def defaultRewards : Rewards := {}

/-- One element of a per-user usage_history list. -/
inductive HEntry
  /-- A dict entry with an optional timestamp and optional username. -/
  | entry (timestamp : Option TimeV) (username : Option String)
  /-- A list element that is not a dict; carried through untouched. -/
  | other
deriving DecidableEq, Repr

/-- The value stored for one user inside usage_history. -/
inductive HistV
  /-- The list format: an ordered list of usage entries. -/
  | lst (l : List HEntry)
  /-- The old single-entry format: a non-list value, abstracted as the
  one entry it stands for. -/
  | single (e : HEntry)
deriving DecidableEq, Repr

/-- The used_by collection, which is a Python set in well-formed states
but becomes a plain list after the archiving path of delete_promocode
rewrites it in place. -/
inductive UsedByV
  | set (ids : List Int)
  | list (ids : List Int)
deriving DecidableEq, Repr

/-- The element list of a used_by value; Python membership tests work on
both representations. -/
def UsedByV.ids : UsedByV → List Int
  | .set l => l
  | .list l => l

/-- One in-memory promocode record, the value type of ACTIVE_PROMOCODES.
Option fields model possibly-absent dict keys. -/
structure Promo where
  expiry : Option TimeV := none
  uses_left : Option Int := none
  max_uses_per_user : Int := 1
  rewards : Option Rewards := none
  used_by : UsedByV := .set []
  usage_history : List (String × HistV) := []
  is_hidden : Bool := false
  created_at : Option TimeV := none
  last_used : Option TimeV := none
  last_modified : Option TimeV := none
  deleted_at : Option TimeV := none
  description : Option String := none
  created_by : Option String := none
deriving DecidableEq, Repr

/-- The in-memory store ACTIVE_PROMOCODES. -/
abbrev Store : Type := List (String × Promo)

/-- The default WELCOMETONATIONDEX record synthesized by the source. -/
def welcomePromo : Promo :=
  { expiry := some (.dt DEFAULT_EXPIRY)
    uses_left := some 1000
    max_uses_per_user := 1
    rewards := some defaultRewards
    used_by := .set [] }

/-- The seed codes exempt from automatic cleaning. -/
def seedCodes : List String := ["WELCOMETONATIONDEX", "WELCOMETOPLEASUREDOME"]

/-- Code normalization, code.strip().upper() in the source: leading and
trailing whitespace is dropped, then every character is upper-cased
(written at the character-list level so that concrete codes evaluate). -/
def normalizeCode (c : String) : String :=
  String.mk
    (((c.data.dropWhile Char.isWhitespace).reverse.dropWhile Char.isWhitespace).reverse.map
      Char.toUpper)

/-- Python truthiness of an Optional[int] identity: None and 0 are falsy. -/
def truthyId : Option Int → Bool
  | none => false
  | some k => k ≠ 0

/-- Per-identity usage count, computed as in both is_valid_promocode and
mark_promocode_used: the length of the usage_history entry when present
(1 for the old single-entry format), else 1 if the identity is a member
of used_by, else 0. -/
def usageCount (p : Promo) (uid : Int) : Nat :=
  match alookup p.usage_history (toString uid) with
  | some (.lst l) => l.length
  | some (.single _) => 1
  | none => if uid ∈ p.used_by.ids then 1 else 0

/-- Tail of the validator after every check has passed except the
rewards check (source lines 1195-1204): a missing or non-dict rewards
value is replaced by the default in memory, and the (possibly updated)
record is returned as the OK result. -/
def vRewards (p : Promo) : Option Promo × Promo :=
  match p.rewards with
  | some _ => (some p, p)
  | none =>
    let p2 : Promo := { p with rewards := some defaultRewards }
    (some p2, p2)

/-- Per-user cap check of the validator (source lines 1174-1193), with
the used_by element list already resolved. -/
def vUserCap (uid : Int) (p : Promo) : Option Promo × Promo :=
  if p.max_uses_per_user ≤ (usageCount p uid : Int) then (none, p) else vRewards p

/-- Per-user section of the validator (source lines 1146-1193): skipped
when no identity is given or when max_uses_per_user is not positive; a
list-form used_by is converted to a set and written back in memory. -/
def vUser (u : Option Int) (p : Promo) : Option Promo × Promo :=
  match u with
  | none => vRewards p
  | some uid =>
    if 0 < p.max_uses_per_user then
      match p.used_by with
      | .set _ => vUserCap uid p
      | .list ids => vUserCap uid { p with used_by := .set ids }
    else vRewards p

/-- Middle of the validator (source lines 1119-1144), entered with the
expiry instant t already resolved to a datetime: expiry, depletion and
hidden checks. -/
def vChecks (now : Int) (u : Option Int) (t : Int) (p : Promo) : Option Promo × Promo :=
  if t < now then (none, p)
  else
    match p.uses_left with
    | none => (none, p)
    | some n =>
      if n ≤ 0 then (none, p)
      else if p.is_hidden && !truthyId u then (none, p)
      else vUser u p

/-- The record-level part of is_valid_promocode (source lines 1092-1204):
required-field checks, expiry normalization (an ISO string is parsed and
written back in memory; line 1104-1117), then the checks.  Returns the
result together with the record as it stands in memory afterwards. -/
def validateRecord (now : Int) (u : Option Int) (p : Promo) : Option Promo × Promo :=
  if p.expiry.isNone ∨ p.uses_left.isNone then (none, p)
  else
    match p.expiry with
    | none => (none, p)
    | some .bad => (none, p)
    | some (.dt t) => vChecks now u t p
    | some (.iso t) => vChecks now u t { p with expiry := some (.dt t) }

/-- Case-insensitive fallback lookup of the validator (source lines
1072-1076): the first stored key equal to the query up to case. -/
def ciLookup : Store → String → Option String
  | [], _ => none
  | (k, _) :: rest, c => if k.toLower = c.toLower then some k else ciLookup rest c

/-- is_valid_promocode (source lines 1030-1210): returns the record when
the code is currently redeemable (some data), otherwise none (False),
together with the store, which the function can update in place while
normalizing ill-typed fields.  The load-if-empty preamble is outside the
model (see the header comment). -/
def is_valid_promocode (s : Store) (now : Int) (code : String) (u : Option Int) :
    Option Promo × Store :=
  if code = "" then (none, s)
  else
    let c := normalizeCode code
    match alookup s c with
    | some p => ((validateRecord now u p).1, areplace s c (validateRecord now u p).2)
    | none =>
      match ciLookup s c with
      | none => (none, s)
      | some k =>
        match alookup s k with
        | none => (none, s)
        | some p => ((validateRecord now u p).1, areplace s k (validateRecord now u p).2)

/-- mark_promocode_used (source lines 789-909).  now is the current
instant; flushOk is the outcome of the save_promocodes_to_file call.
Returns the success flag and the resulting store. -/
def mark_promocode_used (s : Store) (now : Int) (code : String) (uid : Int)
    (username : Option String) (flushOk : Bool) : Bool × Store :=
  let c := normalizeCode code
  match alookup s c with
  | none => (false, s)
  | some p =>
    if p.max_uses_per_user ≤ (usageCount p uid : Int) then (false, s)
    else
      match p.uses_left with
      | none => (false, s)
      | some n =>
        let p1 : Promo := { p with uses_left := some (n - 1) }
        match p1.used_by with
        | .list _ =>
          -- A list-form used_by has no .add method; the AttributeError is
          -- caught by the outer handler and False is returned, but the
          -- decrement already done above stays in memory (lines 849-856
          -- and 907-909).
          (false, areplace s c p1)
        | .set ids =>
          let addedIds : List Int := if uid ∈ ids then ids else ids ++ [uid]
          let p2 : Promo := { p1 with used_by := .set addedIds }
          let e : HEntry := .entry (some (.iso now)) username
          let newHist : List HEntry :=
            match alookup p2.usage_history (toString uid) with
            | none => [e]
            | some (.lst l) => l ++ [e]
            | some (.single old) => [old, e]
          let p3 : Promo :=
            { p2 with
              usage_history := ainsert p2.usage_history (toString uid) (.lst newHist)
              last_used := some (.dt now) }
          if flushOk then (true, areplace s c p3)
          else
            -- Revert block, source lines 885-903.
            let q1 : Promo := { p3 with uses_left := some n }
            let q2 : Promo := { q1 with used_by := .set (addedIds.filter (fun x => x ≠ uid)) }
            let q3 : Promo :=
              match alookup q2.usage_history (toString uid) with
              | some (.lst l) =>
                if 0 < l.length then
                  if l.dropLast.length = 0 then
                    { q2 with usage_history := aerase q2.usage_history (toString uid) }
                  else
                    { q2 with usage_history :=
                        ainsert q2.usage_history (toString uid) (.lst l.dropLast) }
                else { q2 with usage_history := aerase q2.usage_history (toString uid) }
              | some (.single _) =>
                { q2 with usage_history := aerase q2.usage_history (toString uid) }
              | none => q2
            let q4 : Promo := if q3.last_used.isSome then { q3 with last_used := none } else q3
            (false, areplace s c q4)

/-- update_promocode_uses (source lines 635-691): adds the delta, clamps
at 0, stamps last_modified, flushes; on flush failure returns none but
keeps the adjusted record in memory. -/
def update_promocode_uses (s : Store) (now : Int) (code : String) (delta : Int)
    (flushOk : Bool) : Option Int × Store :=
  let c := normalizeCode code
  match alookup s c with
  | none => (none, s)
  | some p =>
    match p.uses_left with
    | none => (none, s)
    | some n =>
      let n2 : Int := if n + delta < 0 then 0 else n + delta
      let p2 : Promo := { p with uses_left := some n2, last_modified := some (.dt now) }
      let s2 := areplace s c p2
      if flushOk then (some n2, s2) else (none, s2)

/-- Map a datetime value to its isoformat string; anything else is left
untouched (the archiving loop of delete_promocode, source lines 757-760). -/
def dtToIso : TimeV → TimeV
  | .dt t => .iso t
  | v => v

/-- In-place mutations the archiving path of delete_promocode applies to
the removed record object (source lines 750-760): a deleted_at ISO
string is added, a set-form used_by becomes a list, and every
datetime-valued field becomes its ISO string. -/
def archiveTransform (now : Int) (p : Promo) : Promo :=
  { p with
    deleted_at := some (.iso now)
    used_by := match p.used_by with
               | .set l => .list l
               | ub => ub
    expiry := p.expiry.map dtToIso
    created_at := p.created_at.map dtToIso
    last_used := p.last_used.map dtToIso
    last_modified := p.last_modified.map dtToIso }

/-- delete_promocode (source lines 693-787): removes the record, runs
the archive path when requested (file writes modelled as succeeding),
flushes, and on flush failure re-inserts the record object, which the
archive path has mutated in place. -/
def delete_promocode (s : Store) (now : Int) (code : String) (archive : Bool)
    (flushOk : Bool) : Bool × Store :=
  let c := normalizeCode code
  match alookup s c with
  | none => (false, s)
  | some p =>
    let s1 := aerase s c
    let p2 := if archive then archiveTransform now p else p
    if flushOk then (true, s1) else (false, s1 ++ [(c, p2)])

/-- The per-record qualification test of clean_expired_promocodes
(source lines 1248-1320): seeds are exempt; a record is removed when its
expiry is missing or not a datetime, or it is expired, or uses_left is
missing or not an int, or it is depleted. -/
def cleanRemovable (now : Int) (c : String) (p : Promo) : Bool :=
  if c ∈ seedCodes then false
  else
    match p.expiry with
    | none => true
    | some (.dt t) =>
      if t < now then true
      else
        match p.uses_left with
        | none => true
        | some n => n ≤ 0
    | some _ => true

/-- clean_expired_promocodes (source lines 1212-1399): collects the
qualifying codes, archives them (modelled as succeeding), removes them,
and flushes once; a failed flush raises, modelled as none.  When nothing
qualifies it returns 0 before any file work. -/
def clean_expired_promocodes (now : Int) (flushOk : Bool) (s : Store) :
    Option (Store × Nat) :=
  let removed := s.filter (fun cp => cleanRemovable now cp.1 cp.2)
  if removed.isEmpty then some (s, 0)
  else
    let s2 := s.filter (fun cp => !cleanRemovable now cp.1 cp.2)
    if flushOk then some (s2, removed.length) else none

/-- A JSON value sitting in a time-valued field of the persisted file:
a string abstracted by its fromisoformat parse result, or any non-string
JSON value. -/
inductive RawTime
  | rstr (parse : Option Int)
  | rother
deriving DecidableEq, Repr

/-- A JSON value sitting in a numeric field: a number abstracted by its
int() value (covering both JSON ints and floats), or a non-number. -/
inductive RawNum
  | rnum (n : Int)
  | rother
deriving DecidableEq, Repr

/-- A JSON value sitting in the used_by field: a list of identities, or
anything else. -/
inductive RawUsedBy
  | rlist (ids : List Int)
  | rother
deriving DecidableEq, Repr

/-- A JSON value sitting in the rewards field: an object with the two
reward keys, or anything that is not a dict. -/
inductive RawRewards
  | robj (r : Rewards)
  | rother
deriving DecidableEq, Repr

/-- One element of a raw per-user usage-history list: a dict with an
optional timestamp and username, or a non-dict element. -/
inductive RawHistEntry
  | rdict (timestamp : Option RawTime) (username : Option String)
  | rother
deriving DecidableEq, Repr

/-- A raw per-user usage-history value: a list of entries, or a
non-list value (the old single-entry format). -/
inductive RawHistV
  | rlist (l : List RawHistEntry)
  | rother
deriving DecidableEq, Repr

/-- One raw entry of the persisted promocodes file, field by field;
none stands for an absent key. -/
structure RawEntry where
  expiry : Option RawTime := none
  uses_left : Option RawNum := none
  rewards : Option RawRewards := none
  used_by : Option RawUsedBy := none
  usage_history : Option (List (String × RawHistV)) := none
  max_uses_per_user : Option RawNum := none
  last_used : Option RawTime := none
  created_at : Option RawTime := none
  last_modified : Option RawTime := none
  is_hidden : Bool := false
  description : Option String := none
  created_by : Option String := none
deriving DecidableEq, Repr

/-- Reconstruction of a raw history entry (source lines 434-446): a
string timestamp is parsed when possible and otherwise left in place as
the raw string; non-dict elements are appended as they are. -/
def processHistEntry : RawHistEntry → HEntry
  | .rdict ts un =>
    .entry
      (match ts with
       | none => none
       | some (.rstr (some t)) => some (.dt t)
       | some (.rstr none) => some .bad
       | some .rother => some .bad)
      un
  | .rother => .other

/-- Reconstruction of a raw per-user history value (source lines
431-450): list values are processed element by element, anything else is
kept as the old single-entry format. -/
def processHistV : RawHistV → HistV
  | .rlist l => .lst (l.map processHistEntry)
  | .rother => .single .other

/-- Reconstruction of one file entry by load_promocodes_from_file
(source lines 362-473).  A record missing any of the required keys
expiry, uses_left, rewards is dropped (none); otherwise each field gets
its defensive default.  now feeds the created_at and last_modified
fallbacks, which use the current time. -/
def processEntry (now : Int) (r : RawEntry) : Option Promo :=
  if r.expiry.isNone ∨ r.uses_left.isNone ∨ r.rewards.isNone then none
  else
    some
      { expiry :=
          some (match r.expiry with
                | some (.rstr (some t)) => .dt t
                | _ => .dt DEFAULT_EXPIRY)
        uses_left :=
          some (match r.uses_left with
                | some (.rnum n) => n
                | _ => 0)
        max_uses_per_user :=
          match r.max_uses_per_user with
          | some (.rnum n) => n
          | _ => 1
        rewards :=
          some (match r.rewards with
                | some (.robj rw) => rw
                | _ => defaultRewards)
        used_by :=
          match r.used_by with
          | some (.rlist ids) => .set ids
          | _ => .set []
        usage_history :=
          match r.usage_history with
          | none => []
          | some hs => hs.map (fun uh => (uh.1, processHistV uh.2))
        is_hidden := r.is_hidden
        created_at :=
          match r.created_at with
          | none => none
          | some (.rstr (some t)) => some (.dt t)
          | some (.rstr none) => some (.dt now)
          | some .rother => some .bad
        last_used :=
          match r.last_used with
          | none => none
          | some (.rstr (some t)) => some (.dt t)
          | some (.rstr none) => some .bad
          | some .rother => some .bad
        last_modified :=
          match r.last_modified with
          | none => none
          | some (.rstr (some t)) => some (.dt t)
          | some (.rstr none) => some (.dt now)
          | some .rother => some .bad
        description := r.description
        created_by := r.created_by }

/-- Reconstruction of the whole file (the processing loop of
load_promocodes_from_file): empty keys are skipped, dropped entries are
skipped, the rest repopulate a fresh dict. -/
def processEntries (now : Int) (entries : List (String × RawEntry)) : Store :=
  entries.foldl
    (fun acc cr =>
      if cr.1 = "" then acc
      else
        match processEntry now cr.2 with
        | some p => ainsert acc cr.1 p
        | none => acc)
    []

/-- The state of the promocodes file as seen by one load: absent,
zero-length, unparsable non-empty content, valid JSON that is not an
object, or a JSON object of entries.  Note that zero-length content is
itself not valid JSON, but the source short-circuits it before parsing
(source lines 313-315). -/
inductive FileState
  | missing
  | empty
  | invalid
  | nonObject
  | obj (entries : List (String × RawEntry))
deriving DecidableEq

/-- The outcome of one load_promocodes_from_file call: the returned
flag, the store and cache timestamp afterwards, the file afterwards, and
whether the corrupt file was renamed aside to a quarantine name. -/
structure LoadResult where
  ok : Bool
  store : Store
  lastLoad : Int
  file : FileState
  quarantined : Bool
deriving DecidableEq

/-- Tail of a load that parsed an object (source lines 479-507): the
store is cleared and repopulated, the cache timestamp is set, the
default code is synthesized when absent, and a dead re-add branch for
the second seed is kept for fidelity. -/
def finishLoad (now : Int) (file : FileState) (entries : List (String × RawEntry)) :
    LoadResult :=
  let processed := processEntries now entries
  let s2 :=
    if (alookup processed "WELCOMETONATIONDEX").isSome then processed
    else ainsert processed "WELCOMETONATIONDEX" welcomePromo
  let s3 :=
    if (alookup processed "WELCOMETOPLEASUREDOME").isSome
        ∧ (alookup s2 "WELCOMETOPLEASUREDOME").isNone then
      ainsert s2 "WELCOMETOPLEASUREDOME"
        ((alookup processed "WELCOMETOPLEASUREDOME").getD welcomePromo)
    else s2
  ⟨true, s3, now, file, false⟩

/-- load_promocodes_from_file (source lines 253-514).  The cache window
check, the missing-file early success, the quarantine of unparsable
content (rename aside plus writing a fresh empty object), the
non-object failure, and the full reparse are all modelled; file-system
primitives are modelled as succeeding. -/
def load_promocodes_from_file (force : Bool) (s : Store) (lastLoad now : Int)
    (file : FileState) : LoadResult :=
  if ¬force ∧ s ≠ [] ∧ now - lastLoad < CACHE_EXPIRY then
    ⟨true, s, lastLoad, file, false⟩
  else
    match file with
    | .missing => ⟨true, s, lastLoad, file, false⟩
    | .invalid => ⟨false, s, lastLoad, .obj [], true⟩
    | .nonObject => ⟨false, s, lastLoad, file, false⟩
    | .empty => finishLoad now file []
    | .obj entries => finishLoad now file entries

/-- A successful lookup exhibits a member of the list. -/
theorem alookup_mem {β : Type} {l : List (String × β)} {c : String} {v : β}
    (h : alookup l c = some v) : (c, v) ∈ l := by
  induction l with
  | nil => simp [alookup] at h
  | cons kv rest ih =>
    obtain ⟨k, w⟩ := kv
    simp only [alookup] at h
    by_cases hk : k = c
    · subst hk
      simp at h
      subst h
      exact List.mem_cons_self _ _
    · simp [hk] at h
      exact List.mem_cons_of_mem _ (ih h)

/-- A key that does not occur in the key list looks up to none. -/
theorem alookup_eq_none {β : Type} {l : List (String × β)} {c : String}
    (h : c ∉ l.map Prod.fst) : alookup l c = none := by
  induction l with
  | nil => rfl
  | cons kv rest ih =>
    obtain ⟨k, w⟩ := kv
    simp only [List.map_cons, List.mem_cons] at h
    push_neg at h
    simp only [alookup]
    rw [if_neg (fun hkc => h.1 hkc.symm)]
    exact ih h.2

/-- Replacing the found value by itself is the identity. -/
theorem areplace_self {β : Type} {l : List (String × β)} {c : String} {v : β}
    (h : alookup l c = some v) : areplace l c v = l := by
  induction l with
  | nil => rfl
  | cons kv rest ih =>
    obtain ⟨k, w⟩ := kv
    simp only [alookup] at h
    simp only [areplace]
    by_cases hk : k = c
    · subst hk
      simp at h
      simp [h]
    · simp [hk] at h ⊢
      exact ih h

/-- Lookup after replacing a present key yields the new value. -/
theorem alookup_areplace {β : Type} {l : List (String × β)} {c : String} {v w : β}
    (h : alookup l c = some v) : alookup (areplace l c w) c = some w := by
  induction l with
  | nil => simp [alookup] at h
  | cons kv rest ih =>
    obtain ⟨k, u⟩ := kv
    simp only [alookup] at h
    simp only [areplace]
    by_cases hk : k = c
    · simp [hk, alookup]
    · simp [hk, alookup] at h ⊢
      exact ih h

/-- Two successive replacements at one key collapse to the second. -/
theorem areplace_areplace {β : Type} (l : List (String × β)) (c : String) (v w : β) :
    areplace (areplace l c v) c w = areplace l c w := by
  induction l with
  | nil => rfl
  | cons kv rest ih =>
    obtain ⟨k, u⟩ := kv
    simp only [areplace]
    by_cases hk : k = c
    · simp [hk, areplace]
    · simp [hk, areplace, ih]

/-- Replacement at a key leaves lookups of other keys unchanged. -/
theorem alookup_areplace_ne {β : Type} {c c2 : String} (hne : c ≠ c2)
    (l : List (String × β)) (w : β) :
    alookup (areplace l c w) c2 = alookup l c2 := by
  induction l with
  | nil => rfl
  | cons kv rest ih =>
    obtain ⟨k, u⟩ := kv
    simp only [areplace]
    by_cases hk : k = c
    · subst hk
      simp [alookup, hne]
    · simp [hk, alookup, ih]

/-- Appending a fresh binding makes it the lookup result when the key
was absent. -/
theorem alookup_append {β : Type} {l : List (String × β)} {c : String} (v : β)
    (h : alookup l c = none) : alookup (l ++ [(c, v)]) c = some v := by
  induction l with
  | nil => simp [alookup]
  | cons kv rest ih =>
    obtain ⟨k, u⟩ := kv
    simp only [alookup] at h ⊢
    by_cases hk : k = c
    · simp [hk] at h
    · simp [hk] at h ⊢
      exact ih h

/-- Appended bindings do not change lookups of other keys. -/
theorem alookup_append_ne {β : Type} {c c2 : String} (hne : c ≠ c2)
    (l : List (String × β)) (v : β) :
    alookup (l ++ [(c, v)]) c2 = alookup l c2 := by
  induction l with
  | nil => simp [alookup, hne]
  | cons kv rest ih =>
    obtain ⟨k, u⟩ := kv
    simp only [List.cons_append, alookup]
    by_cases hk : k = c2
    · simp [hk]
    · simp [hk, ih]

/-- Erasing an appended fresh binding restores the original list. -/
theorem aerase_append {β : Type} {l : List (String × β)} {c : String} (v : β)
    (h : alookup l c = none) : aerase (l ++ [(c, v)]) c = l := by
  induction l with
  | nil => simp [aerase]
  | cons kv rest ih =>
    obtain ⟨k, u⟩ := kv
    simp only [alookup] at h
    by_cases hk : k = c
    · simp [hk] at h
    · simp [aerase, hk] at h ⊢
      exact ih h

/-- Lookup after a dict assignment yields the assigned value. -/
theorem alookup_ainsert {β : Type} (l : List (String × β)) (c : String) (v : β) :
    alookup (ainsert l c v) c = some v := by
  unfold ainsert
  by_cases h : (alookup l c).isSome
  · obtain ⟨w, hw⟩ := Option.isSome_iff_exists.mp h
    simp [h]
    exact alookup_areplace hw
  · simp [h]
    exact alookup_append v (Option.not_isSome_iff_eq_none.mp h)

/-- A dict assignment leaves lookups of other keys unchanged. -/
theorem alookup_ainsert_ne {β : Type} {c c2 : String} (hne : c ≠ c2)
    (l : List (String × β)) (v : β) :
    alookup (ainsert l c v) c2 = alookup l c2 := by
  unfold ainsert
  by_cases h : (alookup l c).isSome
  · simp [h, alookup_areplace_ne hne]
  · simp [h, alookup_append_ne hne]

/-- Every member of a replaced list is the new binding or an original
member. -/
theorem mem_areplace {β : Type} {l : List (String × β)} {c : String} {w : β}
    {x : String × β} (h : x ∈ areplace l c w) : x = (c, w) ∨ x ∈ l := by
  induction l with
  | nil => simp [areplace] at h
  | cons kv rest ih =>
    obtain ⟨k, u⟩ := kv
    simp only [areplace] at h
    by_cases hk : k = c
    · subst hk
      simp at h
      rcases h with h | h
      · exact Or.inl h
      · exact Or.inr (List.mem_cons_of_mem _ h)
    · simp [hk] at h
      rcases h with h | h
      · exact Or.inr (by simp [h])
      · rcases ih h with h2 | h2
        · exact Or.inl h2
        · exact Or.inr (List.mem_cons_of_mem _ h2)

/-- With unique keys, erasing a key makes its lookup fail. -/
theorem alookup_aerase {β : Type} {l : List (String × β)} {c : String}
    (h : (l.map Prod.fst).Nodup) : alookup (aerase l c) c = none := by
  induction l with
  | nil => rfl
  | cons kv rest ih =>
    obtain ⟨k, u⟩ := kv
    simp only [List.map_cons, List.nodup_cons] at h
    simp only [aerase]
    by_cases hk : k = c
    · subst hk
      simp
      exact alookup_eq_none h.1
    · simp only [hk, if_false, alookup]
      exact ih h.2

/-- Filtering for a property after filtering for its negation leaves
nothing. -/
theorem filter_not_filter {α : Type} (f : α → Bool) (l : List α) :
    (l.filter (fun x => !f x)).filter f = [] := by
  induction l with
  | nil => rfl
  | cons a rest ih =>
    by_cases h : f a
    · simp [List.filter, h, ih]
    · simp at h
      simp [List.filter, h, ih]

/-- A record is well typed when its expiry is not an ISO string needing
conversion, its used_by is a genuine set, and its rewards dict is
present: exactly the conditions under which the validator has nothing to
normalize.  Records produced by the loader and by create are well typed;
the in-place archive mutation of a failed delete breaks it. -/
def wellTypedPromo (p : Promo) : Bool :=
  (match p.expiry with
   | some (.iso _) => false
   | _ => true)
  && (match p.used_by with
      | .set _ => true
      | .list _ => false)
  && p.rewards.isSome

/-- The rewards tail leaves a record with present rewards untouched. -/
theorem vRewards_frame {p : Promo} (h : p.rewards.isSome) : (vRewards p).2 = p := by
  unfold vRewards
  cases hr : p.rewards with
  | none => rw [hr] at h; simp at h
  | some rw => simp

/-- The cap check leaves a record with present rewards untouched. -/
theorem vUserCap_frame {p : Promo} (uid : Int) (h : p.rewards.isSome) :
    (vUserCap uid p).2 = p := by
  unfold vUserCap
  split
  · rfl
  · exact vRewards_frame h

/-- The per-user section leaves a well-typed record untouched. -/
theorem vUser_frame {p : Promo} (u : Option Int)
    (hub : (match p.used_by with | .set _ => true | .list _ => false) = true)
    (h : p.rewards.isSome) : (vUser u p).2 = p := by
  unfold vUser
  cases u with
  | none => exact vRewards_frame h
  | some uid =>
    simp only
    split
    · cases hb : p.used_by with
      | set ids => simp only [hb]; exact vUserCap_frame uid h
      | list ids => rw [hb] at hub; simp at hub
    · exact vRewards_frame h

/-- The check chain leaves a well-typed record untouched. -/
theorem vChecks_frame {p : Promo} (now : Int) (u : Option Int) (t : Int)
    (hub : (match p.used_by with | .set _ => true | .list _ => false) = true)
    (h : p.rewards.isSome) : (vChecks now u t p).2 = p := by
  unfold vChecks
  split
  · rfl
  · split
    · rfl
    · split
      · rfl
      · split
        · rfl
        · exact vUser_frame u hub h

/-- The whole record validator leaves a well-typed record untouched. -/
theorem validateRecord_frame {p : Promo} (now : Int) (u : Option Int)
    (h : wellTypedPromo p = true) : (validateRecord now u p).2 = p := by
  unfold wellTypedPromo at h
  simp only [Bool.and_eq_true] at h
  obtain ⟨⟨hexp, hub⟩, hrw⟩ := h
  unfold validateRecord
  split
  · rfl
  · cases he : p.expiry with
    | none => simp
    | some tv =>
      cases tv with
      | dt t => exact vChecks_frame now u t (by simpa using hub) hrw
      | iso t => rw [he] at hexp; simp at hexp
      | bad => rfl

/-- A store record used below: a well-typed record whose expiry is still
an ISO string, reachable through the failed-delete restore path. -/
def promoIsoExpiry : Promo :=
  { expiry := some (.iso 100)
    uses_left := some 1
    max_uses_per_user := 1
    rewards := some defaultRewards }

/-- A one-record store whose record carries an ISO-string expiry. -/
def storeIsoExpiry : Store := [("A", promoIsoExpiry)]

/-- Claim C9, counterexample: is_valid_promocode is not a pure read.
On a store whose record holds its expiry as an ISO string (the state a
failed archiving delete leaves behind), the validator parses the string
and writes the datetime back into the store, so the store after the
call differs from the store before it. -/
theorem claim_C9_counterexample :
    (is_valid_promocode storeIsoExpiry 0 "A" none).2 ≠ storeIsoExpiry := by decide

/-- Claim C9, amended: is_valid_promocode mutates the store only to
normalize ill-typed record fields in place; whenever every stored record
is well typed (expiry held as a datetime, used_by a set, rewards
present), the store after the call is identical to the store before it,
for every code and identity. -/
theorem claim_C9_amended (s : Store) (now : Int) (c : String) (u : Option Int)
    (h : ∀ cp ∈ s, wellTypedPromo cp.2 = true) :
    (is_valid_promocode s now c u).2 = s := by
  unfold is_valid_promocode
  by_cases hc : c = ""
  · simp [hc]
  · simp only [hc, if_false]
    cases hl : alookup s (normalizeCode c) with
    | some p =>
      have hwt := h _ (alookup_mem hl)
      simp only [validateRecord_frame now u hwt]
      exact areplace_self hl
    | none =>
      cases hci : ciLookup s (normalizeCode c) with
      | none => rfl
      | some k =>
        dsimp only
        cases hk : alookup s k with
        | none => rfl
        | some p =>
          have hwt := h _ (alookup_mem hk)
          simp only [validateRecord_frame now u hwt]
          exact areplace_self hk

/-- Claim C9, witness for the amended theorem at a concrete store. -/
theorem claim_C9_amended_witness :
    (is_valid_promocode [("A", welcomePromo)] 0 "A" (some 1)).2 = [("A", welcomePromo)] :=
  claim_C9_amended [("A", welcomePromo)] 0 "A" (some 1) (by decide)

/-- The rewards tail always reports success (with the record, possibly
carrying a freshly defaulted rewards dict). -/
theorem vRewards_fst_isSome (p : Promo) : (vRewards p).1.isSome = true := by
  unfold vRewards
  cases p.rewards <;> simp

/-- Converting used_by from list form to set form does not change the
per-identity usage count. -/
theorem usageCount_set_of_list {p : Promo} {ids : List Int} (h : p.used_by = .list ids)
    (uid : Int) : usageCount { p with used_by := .set ids } uid = usageCount p uid := by
  unfold usageCount
  simp [h, UsedByV.ids]

/-- The eligibility condition exactly as claim C1 states it: not past
expiry, uses remaining, hidden codes need an identity, and the usage
count of the identity is strictly below the per-user cap. -/
def origEligible (now t n : Int) (p : Promo) (u : Option Int) : Bool :=
  decide (now ≤ t) && decide (0 < n) && (!p.is_hidden || u.isSome)
    && (match u with
        | none => true
        | some uid => decide ((usageCount p uid : Int) < p.max_uses_per_user))

/-- The eligibility condition the source actually implements: an
identity of 0 does not count as supplied for the hidden check, and the
per-user cap is only enforced when max_uses_per_user is positive. -/
def amendedEligible (now t n : Int) (p : Promo) (u : Option Int) : Bool :=
  decide (now ≤ t) && decide (0 < n) && (!p.is_hidden || truthyId u)
    && (match u with
        | none => true
        | some uid =>
          !decide (0 < p.max_uses_per_user)
            || decide ((usageCount p uid : Int) < p.max_uses_per_user))

/-- A record with a zero per-user cap, on which the claimed and the
implemented eligibility conditions disagree. -/
def promoZeroCap : Promo :=
  { expiry := some (.dt 100)
    uses_left := some 1
    max_uses_per_user := 0
    rewards := some defaultRewards }

/-- Claim C1, counterexample: for the stored code A with
max_uses_per_user = 0, unexpired and with a use left, the validator
returns the record (OK) although the per-identity usage count 0 is not
strictly below max_uses_per_user = 0, so the stated iff fails. -/
theorem claim_C1_counterexample :
    (is_valid_promocode [("A", promoZeroCap)] 0 "A" (some 1)).1.isSome = true
      ∧ origEligible 0 100 1 promoZeroCap (some 1) = false := by decide

/-- The cap check reports success exactly when the usage count is
strictly below the cap. -/
theorem vUserCap_fst (uid : Int) (p : Promo) :
    (vUserCap uid p).1.isSome = decide ((usageCount p uid : Int) < p.max_uses_per_user) := by
  unfold vUserCap
  by_cases h : p.max_uses_per_user ≤ (usageCount p uid : Int)
  · rw [if_pos h]
    simp [show ¬((usageCount p uid : Int) < p.max_uses_per_user) by omega]
  · rw [if_neg h]
    simp [vRewards_fst_isSome, show (usageCount p uid : Int) < p.max_uses_per_user by omega]

/-- The per-user section reports success unless a positive cap is
reached by the usage count. -/
theorem vUser_fst (u : Option Int) (p : Promo) :
    (vUser u p).1.isSome
      = (match u with
         | none => true
         | some uid =>
           !decide (0 < p.max_uses_per_user)
             || decide ((usageCount p uid : Int) < p.max_uses_per_user)) := by
  unfold vUser
  cases u with
  | none => simp [vRewards_fst_isSome]
  | some uid =>
    dsimp only
    by_cases h4 : 0 < p.max_uses_per_user
    · rw [if_pos h4]
      cases hb : p.used_by with
      | set ids =>
        rw [vUserCap_fst]
        simp [h4]
      | list ids =>
        dsimp only
        rw [vUserCap_fst, usageCount_set_of_list hb uid]
        simp [h4]
    · rw [if_neg h4]
      simp [vRewards_fst_isSome, h4]

/-- The check chain reports success exactly on the implemented
eligibility condition. -/
theorem vChecks_fst (now : Int) (u : Option Int) (t : Int) {p : Promo} {n : Int}
    (hn : p.uses_left = some n) :
    (vChecks now u t p).1.isSome = amendedEligible now t n p u := by
  unfold vChecks
  rw [hn]
  by_cases h1 : t < now
  · rw [if_pos h1]
    simp [amendedEligible, show ¬(now ≤ t) by omega]
  · rw [if_neg h1]
    dsimp only
    by_cases h2 : n ≤ 0
    · rw [if_pos h2]
      simp [amendedEligible, show ¬(0 < n) by omega]
    · rw [if_neg h2]
      by_cases h3 : (p.is_hidden && !truthyId u) = true
      · rw [if_pos h3]
        simp only [Bool.and_eq_true, Bool.not_eq_true'] at h3
        simp [amendedEligible, h3.1, h3.2]
      · rw [if_neg h3]
        rw [vUser_fst]
        simp only [Bool.and_eq_true, Bool.not_eq_true'] at h3
        have hor : (!p.is_hidden || truthyId u) = true := by
          rcases Bool.eq_false_or_eq_true p.is_hidden with hh | hh
          · have ht : truthyId u = true := by
              by_contra hcon
              exact h3 ⟨hh, by simpa using hcon⟩
            simp [ht]
          · simp [hh]
        unfold amendedEligible
        rw [hor]
        simp [show now ≤ t by omega, show 0 < n by omega]

/-- Claim C1, amended: for a stored, normalized, nonempty code whose
record holds a datetime expiry and an integer uses_left, the validator
returns OK exactly when now is not past expiry, uses_left is positive,
a hidden record gets a truthy (nonzero) identity, and, when an identity
is supplied and max_uses_per_user is positive, the per-identity usage
count is strictly below max_uses_per_user; a non-positive cap disables
the per-user check. -/
theorem claim_C1_amended (s : Store) (now : Int) (c : String) (u : Option Int)
    (p : Promo) (t n : Int) (hc : c ≠ "") (hnorm : normalizeCode c = c)
    (hl : alookup s c = some p) (hexp : p.expiry = some (.dt t))
    (huses : p.uses_left = some n) :
    (is_valid_promocode s now c u).1.isSome = amendedEligible now t n p u := by
  unfold is_valid_promocode
  simp only [hc, if_false, hnorm, hl]
  unfold validateRecord
  rw [hexp, huses]
  simp only [Option.isNone_some, Bool.false_eq_true, or_self, if_false]
  exact vChecks_fst now u t huses

/-- Claim C1, witness for the amended theorem at a concrete store. -/
theorem claim_C1_amended_witness :
    (is_valid_promocode [("B", welcomePromo)] 5 "B" (some 2)).1.isSome
      = amendedEligible 5 DEFAULT_EXPIRY 1000 welcomePromo (some 2) :=
  claim_C1_amended [("B", welcomePromo)] 5 "B" (some 2) welcomePromo DEFAULT_EXPIRY 1000
    (by decide) (by decide) (by decide) (by decide) (by decide)

/-- A record has a nonnegative uses_left (when the key is present). -/
def promoNonneg (p : Promo) : Bool :=
  match p.uses_left with
  | some n => decide (0 ≤ n)
  | none => true

/-- A record has a positive uses_left (when the key is present). -/
def promoUsesPos (p : Promo) : Bool :=
  match p.uses_left with
  | some n => decide (1 ≤ n)
  | none => true

/-- Every record of the store has a nonnegative uses_left. -/
def storeNonneg (s : Store) : Bool := s.all (fun cp => promoNonneg cp.2)

/-- Every record of the store has a positive uses_left. -/
def storeUsesPos (s : Store) : Bool := s.all (fun cp => promoUsesPos cp.2)

/-- Positivity of uses_left implies nonnegativity. -/
theorem promoNonneg_of_pos {p : Promo} (h : promoUsesPos p = true) : promoNonneg p = true := by
  unfold promoUsesPos at h
  unfold promoNonneg
  cases hu : p.uses_left with
  | none => rfl
  | some n =>
    rw [hu] at h
    simp at h ⊢
    omega

/-- A record whose uses_left holds a nonnegative value is nonnegative. -/
theorem promoNonneg_uses {p : Promo} {n : Int} (h : p.uses_left = some n) (hn : 0 ≤ n) :
    promoNonneg p = true := by
  unfold promoNonneg
  rw [h]
  simpa using hn

/-- update_promocode_uses preserves nonnegativity of every uses_left:
the adjusted value is clamped at 0 on both flush outcomes. -/
theorem update_preserves_nonneg (s : Store) (now : Int) (c : String) (d : Int) (fo : Bool)
    (h : ∀ cp ∈ s, promoNonneg cp.2 = true) :
    ∀ cp ∈ (update_promocode_uses s now c d fo).2, promoNonneg cp.2 = true := by
  intro cp hm
  unfold update_promocode_uses at hm
  dsimp only at hm
  cases hl : alookup s (normalizeCode c) with
  | none =>
    rw [hl] at hm
    exact h cp hm
  | some p =>
    rw [hl] at hm
    dsimp only at hm
    cases hu : p.uses_left with
    | none =>
      rw [hu] at hm
      exact h cp hm
    | some n =>
      rw [hu] at hm
      dsimp only at hm
      have hm2 : cp ∈ areplace s (normalizeCode c)
          { p with uses_left := some (if n + d < 0 then 0 else n + d),
                   last_modified := some (.dt now) } := by
        cases fo <;> simpa using hm
      rcases mem_areplace hm2 with he | he
      · rw [he]
        unfold promoNonneg
        simp only
        split <;> simp
        omega
      · exact h cp he

/-- mark_promocode_used turns a store whose records all have a positive
uses_left into one whose records all have a nonnegative uses_left: the
single unguarded decrement is the only change a call can make. -/
theorem mark_preserves_nonneg (s : Store) (now : Int) (c : String) (uid : Int)
    (un : Option String) (fo : Bool) (h : ∀ cp ∈ s, promoUsesPos cp.2 = true) :
    ∀ cp ∈ (mark_promocode_used s now c uid un fo).2, promoNonneg cp.2 = true := by
  intro cp hm
  unfold mark_promocode_used at hm
  dsimp only at hm
  cases hl : alookup s (normalizeCode c) with
  | none =>
    rw [hl] at hm
    exact promoNonneg_of_pos (h cp hm)
  | some p =>
    rw [hl] at hm
    dsimp only at hm
    by_cases hcap : p.max_uses_per_user ≤ (usageCount p uid : Int)
    · rw [if_pos hcap] at hm
      exact promoNonneg_of_pos (h cp hm)
    · rw [if_neg hcap] at hm
      cases hu : p.uses_left with
      | none =>
        rw [hu] at hm
        exact promoNonneg_of_pos (h cp hm)
      | some n =>
        have hn : 1 ≤ n := by
          have hp := h _ (alookup_mem hl)
          unfold promoUsesPos at hp
          rw [hu] at hp
          simpa using hp
        rw [hu] at hm
        dsimp only at hm
        cases hb : p.used_by with
        | list ids =>
          rw [hb] at hm
          dsimp only at hm
          rcases mem_areplace hm with he | he
          · rw [he]
            unfold promoNonneg
            simp
            omega
          · exact promoNonneg_of_pos (h cp he)
        | set ids =>
          rw [hb] at hm
          dsimp only at hm
          cases fo with
          | true =>
            simp only [if_pos rfl] at hm
            rcases mem_areplace hm with he | he
            · rw [he]
              unfold promoNonneg
              simp
              omega
            · exact promoNonneg_of_pos (h cp he)
          | false =>
            simp only [Bool.false_eq_true, if_false] at hm
            rcases mem_areplace hm with he | he
            · rw [he]
              refine promoNonneg_uses (n := n) ?_ (by omega)
              repeat' split
              all_goals rfl
            · exact promoNonneg_of_pos (h cp he)

/-- A live, unexpired record whose global budget is exhausted. -/
def promoDepleted : Promo :=
  { expiry := some (.dt 100)
    uses_left := some 0
    max_uses_per_user := 1
    rewards := some defaultRewards }

/-- Claim C2, counterexample: mark_promocode_used called on a code with
uses_left = 0 by a fresh identity below its per-user cap succeeds and
drives the stored uses_left to -1, violating the nonnegativity
invariant. -/
theorem claim_C2_counterexample :
    (mark_promocode_used [("A", promoDepleted)] 50 "A" 7 none true).1 = true
      ∧ (alookup (mark_promocode_used [("A", promoDepleted)] 50 "A" 7 none true).2 "A").map
          Promo.uses_left = some (some (-1)) := by decide

/-- Claim C2, amended: update_promocode_uses preserves nonnegativity of
every uses_left unconditionally (it clamps the adjusted value at 0),
while mark_promocode_used decrements uses_left by one with no depletion
check, so it guarantees nonnegative values afterwards only when every
record held a positive uses_left before the call. -/
theorem claim_C2_amended :
    (∀ s now c d fo, storeNonneg s = true →
       storeNonneg (update_promocode_uses s now c d fo).2 = true)
    ∧ (∀ s now c uid un fo, storeUsesPos s = true →
       storeNonneg (mark_promocode_used s now c uid un fo).2 = true) := by
  constructor
  · intro s now c d fo h
    unfold storeNonneg at h ⊢
    rw [List.all_eq_true] at h ⊢
    exact update_preserves_nonneg s now c d fo h
  · intro s now c uid un fo h
    unfold storeUsesPos at h
    unfold storeNonneg
    rw [List.all_eq_true] at h ⊢
    exact mark_preserves_nonneg s now c uid un fo h

/-- Claim C2, witness for the amended theorem at a concrete store and a
large negative adjustment. -/
theorem claim_C2_amended_witness :
    storeNonneg (update_promocode_uses [("A", welcomePromo)] 0 "A" (-2000) true).2 = true :=
  claim_C2_amended.1 [("A", welcomePromo)] 0 "A" (-2000) true (by decide)

/-- Claim C10: when the flush inside update_promocode_uses fails, the
function returns none (failure) but the stored record keeps the
adjusted, clamped uses_left and the fresh last_modified stamp, so
memory diverges from the durable file. -/
theorem claim_C10 (s : Store) (now : Int) (c : String) (d : Int) (p : Promo) (n : Int)
    (hl : alookup s (normalizeCode c) = some p) (hu : p.uses_left = some n) :
    (update_promocode_uses s now c d false).1 = none
      ∧ alookup (update_promocode_uses s now c d false).2 (normalizeCode c)
          = some { p with uses_left := some (if n + d < 0 then 0 else n + d),
                          last_modified := some (.dt now) } := by
  unfold update_promocode_uses
  simp only [hl, hu]
  exact ⟨rfl, alookup_areplace hl⟩

/-- Claim C10, witness at a concrete store and adjustment. -/
theorem claim_C10_witness :
    (update_promocode_uses [("A", welcomePromo)] 9 "A" (-5) false).1 = none
      ∧ alookup (update_promocode_uses [("A", welcomePromo)] 9 "A" (-5) false).2
          (normalizeCode "A")
          = some { welcomePromo with uses_left := some 995, last_modified := some (.dt 9) } := by
  have h := claim_C10 [("A", welcomePromo)] 9 "A" (-5) welcomePromo 1000 (by decide) (by decide)
  simpa using h

/-- A record with set-form used_by, datetime fields and no deletion
stamp, as any record produced by the loader or by create. -/
def promoLive : Promo :=
  { expiry := some (.dt 100)
    uses_left := some 3
    max_uses_per_user := 1
    rewards := some defaultRewards
    used_by := .set [5]
    created_at := some (.dt 10) }

/-- Claim C5, counterexample: deleting code A with archive = true under
a failing flush reports failure but restores a record that is not the
pre-call record: it has gained a deleted_at stamp, its expiry and
created_at are now ISO strings, and used_by has become a list. -/
theorem claim_C5_counterexample :
    (delete_promocode [("A", promoLive)] 200 "A" true false).1 = false
      ∧ alookup (delete_promocode [("A", promoLive)] 200 "A" true false).2 "A" ≠ some promoLive
      ∧ alookup (delete_promocode [("A", promoLive)] 200 "A" true false).2 "A"
          = some { promoLive with
                     deleted_at := some (.iso 200)
                     used_by := .list [5]
                     expiry := some (.iso 100)
                     created_at := some (.iso 10) } := by decide

/-- Claim C5, amended: when the post-removal flush fails,
delete_promocode reports failure and re-inserts the removed record
object; with archive = false that object is identical to the pre-call
record, while with archive = true it is the pre-call record mutated in
place by the archiving path: a deleted_at ISO stamp is added, every
datetime field is stringified, and a set-form used_by becomes a list. -/
theorem claim_C5_amended (s : Store) (now : Int) (c : String) (p : Promo)
    (hl : alookup s (normalizeCode c) = some p)
    (hnd : (s.map Prod.fst).Nodup) :
    (delete_promocode s now c false false).1 = false
      ∧ alookup (delete_promocode s now c false false).2 (normalizeCode c) = some p
      ∧ (delete_promocode s now c true false).1 = false
      ∧ alookup (delete_promocode s now c true false).2 (normalizeCode c)
          = some (archiveTransform now p) := by
  unfold delete_promocode
  simp only [hl]
  have he : alookup (aerase s (normalizeCode c)) (normalizeCode c) = none :=
    alookup_aerase hnd
  refine ⟨rfl, ?_, rfl, ?_⟩
  · simpa using alookup_append p he
  · simpa using alookup_append (archiveTransform now p) he

/-- Claim C5, witness for the amended theorem at a concrete store. -/
theorem claim_C5_amended_witness :
    (delete_promocode [("A", promoLive)] 200 "A" false false).1 = false
      ∧ alookup (delete_promocode [("A", promoLive)] 200 "A" false false).2
          (normalizeCode "A") = some promoLive
      ∧ (delete_promocode [("A", promoLive)] 200 "A" true false).1 = false
      ∧ alookup (delete_promocode [("A", promoLive)] 200 "A" true false).2
          (normalizeCode "A") = some (archiveTransform 200 promoLive) :=
  claim_C5_amended [("A", promoLive)] 200 "A" promoLive (by decide) (by decide)

/-- A non-seed record that is already expired at instant 100. -/
def promoExpired : Promo :=
  { expiry := some (.dt 10)
    uses_left := some 1
    max_uses_per_user := 1
    rewards := some defaultRewards }

/-- Claim C8: cleaning is idempotent at a fixed instant.  Whatever a
first clean_expired_promocodes call returns (store and count, under any
flush outcome), a second call on the resulting store with no
intervening mutation removes nothing and returns 0: the first pass has
already removed every non-exempt expired, depleted or malformed record. -/
theorem claim_C8 (now : Int) (fo fo2 : Bool) (s s2 : Store) (n : Nat)
    (h : clean_expired_promocodes now fo s = some (s2, n)) :
    clean_expired_promocodes now fo2 s2 = some (s2, 0) := by
  unfold clean_expired_promocodes at h ⊢
  by_cases hrem : (s.filter (fun cp => cleanRemovable now cp.1 cp.2)).isEmpty
  · rw [if_pos hrem] at h
    have hs : s = s2 := by
      injection h with h2
      exact congrArg Prod.fst h2
    subst hs
    rw [if_pos hrem]
  · rw [if_neg hrem] at h
    cases fo with
    | false => simp at h
    | true =>
      simp only [if_pos rfl] at h
      injection h with h2
      have hs : s2 = s.filter (fun cp => !cleanRemovable now cp.1 cp.2) :=
        (congrArg Prod.fst h2).symm
      have hempty :
          (s2.filter (fun cp => cleanRemovable now cp.1 cp.2)).isEmpty = true := by
        rw [hs, filter_not_filter]
        rfl
      rw [if_pos hempty]

/-- Claim C8, witness: a first clean at instant 100 removes the expired
code X, and the theorem yields that a second clean returns 0. -/
theorem claim_C8_witness :
    clean_expired_promocodes 100 false [] = some ([], 0) :=
  claim_C8 100 true false [("X", promoExpired)] [] 1 (by decide)

/-- Removing the identity from the just-extended used_by set gives the
same result as filtering it from the original set. -/
theorem filter_ne_added (uid : Int) (ids : List Int) :
    List.filter (fun x => !decide (x = uid)) (if uid ∈ ids then ids else ids ++ [uid])
      = List.filter (fun x => !decide (x = uid)) ids := by
  by_cases hm : uid ∈ ids
  · rw [if_pos hm]
  · rw [if_neg hm]
    simp [List.filter_append]

/-- The revert precondition on the usage history: the identity has no
prior history entry, or a nonempty list-form one.  In the remaining
cases (the old single-entry format, or a present empty list) the revert
block does not restore the original representation. -/
def histOk (p : Promo) (uid : Int) : Bool :=
  match alookup p.usage_history (toString uid) with
  | none => true
  | some (.lst l) => !l.isEmpty
  | some (.single _) => false

/-- A record an identity has used once before (recorded in used_by
only), with a two-use cap and a last_used stamp. -/
def promoUsedOnce : Promo :=
  { expiry := some (.dt 100)
    uses_left := some 5
    max_uses_per_user := 2
    rewards := some defaultRewards
    used_by := .set [7]
    last_used := some (.dt 50) }

/-- Claim C3, counterexample: identity 7 is already in used_by (one
prior use, cap 2) and the record has a last_used stamp.  A mark call
whose flush fails reverts, but the revert removes 7 from used_by even
though this was not its first use, and deletes the pre-existing
last_used stamp, so the record is not restored to its pre-call value. -/
theorem claim_C3_counterexample :
    (mark_promocode_used [("A", promoUsedOnce)] 60 "A" 7 none false).1 = false
      ∧ (alookup (mark_promocode_used [("A", promoUsedOnce)] 60 "A" 7 none false).2 "A").map
          Promo.used_by = some (.set [])
      ∧ (alookup (mark_promocode_used [("A", promoUsedOnce)] 60 "A" 7 none false).2 "A").map
          Promo.last_used = some none
      ∧ (mark_promocode_used [("A", promoUsedOnce)] 60 "A" 7 none false).2
          ≠ [("A", promoUsedOnce)] := by decide

/-- Claim C3, amended: when the flush inside mark_promocode_used fails,
the call returns failure and restores uses_left exactly; the usage
history is restored exactly provided the identity had no prior history
entry or a nonempty list-form one; but the identity is removed from
used_by unconditionally (membership is lost when it was already
present), and last_used is deleted unconditionally (a pre-existing
stamp is lost). -/
theorem claim_C3_amended (s : Store) (now : Int) (c : String) (uid : Int)
    (un : Option String) (p : Promo) (n : Int) (ids : List Int)
    (hl : alookup s (normalizeCode c) = some p)
    (hcap : (usageCount p uid : Int) < p.max_uses_per_user)
    (hu : p.uses_left = some n)
    (hub : p.used_by = .set ids)
    (hh : histOk p uid = true) :
    (mark_promocode_used s now c uid un false).1 = false
      ∧ alookup (mark_promocode_used s now c uid un false).2 (normalizeCode c)
          = some { p with used_by := .set (ids.filter (fun x => x ≠ uid)),
                          last_used := none } := by
  unfold mark_promocode_used
  simp only [hl]
  rw [if_neg (by omega : ¬ p.max_uses_per_user ≤ (usageCount p uid : Int))]
  rw [hu]
  try dsimp only
  rw [hub]
  try dsimp only
  simp only [Bool.false_eq_true, if_false]
  refine ⟨trivial, ?_⟩
  rw [alookup_areplace hl]
  congr 1
  unfold histOk at hh
  cases hlk : alookup p.usage_history (toString uid) with
  | none =>
    simp only [hlk]
    try dsimp only
    simp only [ainsert, hlk, Option.isSome_none, Bool.false_eq_true, if_false]
    rw [alookup_append (HistV.lst [HEntry.entry (some (TimeV.iso now)) un]) hlk]
    simp [aerase_append (HistV.lst [HEntry.entry (some (TimeV.iso now)) un]) hlk]
    exact filter_ne_added uid ids
  | some hv =>
    cases hv with
    | single e0 =>
      rw [hlk] at hh
      simp at hh
    | lst l =>
      rw [hlk] at hh
      have hlne : l ≠ [] := by simpa using hh
      simp only [hlk]
      try dsimp only
      simp only [ainsert, hlk, Option.isSome_some, if_true]
      rw [alookup_areplace hlk]
      simp [List.dropLast_concat, hlne, areplace_areplace, areplace_self hlk]
      exact filter_ne_added uid ids

/-- Claim C3, witness for the amended theorem at a concrete store. -/
theorem claim_C3_amended_witness :
    (mark_promocode_used [("A", promoUsedOnce)] 60 "A" 7 none false).1 = false
      ∧ alookup (mark_promocode_used [("A", promoUsedOnce)] 60 "A" 7 none false).2
          (normalizeCode "A")
          = some { promoUsedOnce with used_by := .set ([7].filter (fun x => x ≠ 7)),
                                      last_used := none } :=
  claim_C3_amended [("A", promoUsedOnce)] 60 "A" 7 none promoUsedOnce 5 [7]
    (by decide) (by decide) (by decide) (by decide) (by decide)

/-- Claim C4, counterexample: a file whose content is a zero-length
string is not valid JSON either, yet the loader short-circuits it before
parsing: the load succeeds (treating the content as an empty object)
and no quarantine rename happens, against the claimed
failure-plus-quarantine behaviour for every non-JSON content. -/
theorem claim_C4_counterexample :
    (load_promocodes_from_file true [] 0 0 .empty).ok = true
      ∧ (load_promocodes_from_file true [] 0 0 .empty).quarantined = false := by decide

/-- Claim C4, amended: on any cache-missing call that reads nonempty
content that is not valid JSON, load_promocodes_from_file returns
failure without raising, leaves the store unchanged, renames the
corrupt file aside under a timestamped quarantine name, and writes an
empty JSON object in its place; zero-length content is instead treated
as an empty object and the load succeeds. -/
theorem claim_C4_amended (force : Bool) (s : Store) (lastLoad now : Int)
    (h : ¬(force = false ∧ s ≠ [] ∧ now - lastLoad < CACHE_EXPIRY)) :
    load_promocodes_from_file force s lastLoad now .invalid
      = ⟨false, s, lastLoad, .obj [], true⟩ := by
  unfold load_promocodes_from_file
  rw [if_neg ?hc]
  case hc =>
    intro hcond
    exact h ⟨by simpa using hcond.1, hcond.2.1, hcond.2.2⟩

/-- Claim C4, witness for the amended theorem on a forced reload. -/
theorem claim_C4_amended_witness :
    load_promocodes_from_file true [] 0 0 .invalid = ⟨false, [], 0, .obj [], true⟩ :=
  claim_C4_amended true [] 0 0 (by simp)

/-- A store that lacks the default code. -/
def storeOther : Store := [("OTHER", promoLive)]

/-- Claim C7, counterexample: a load that hits the cache window (store
nonempty, last load 0 seconds ago) returns success without ensuring the
default code: WELCOMETONATIONDEX is absent afterwards. -/
theorem claim_C7_counterexample :
    (load_promocodes_from_file false storeOther 100 100 .missing).ok = true
      ∧ alookup (load_promocodes_from_file false storeOther 100 100 .missing).store
          "WELCOMETONATIONDEX" = none := by decide

/-- Claim C7, amended: after a load that actually reads and parses the
file (here: a forced reload of a JSON object), WELCOMETONATIONDEX is
present in the store, and when the parsed entries do not contain it, it
is synthesized exactly with its default fields.  The cache-hit and
missing-file success paths return without ensuring its presence. -/
theorem claim_C7_amended (s : Store) (lastLoad now : Int)
    (es : List (String × RawEntry)) :
    (alookup (load_promocodes_from_file true s lastLoad now (.obj es)).store
        "WELCOMETONATIONDEX").isSome = true
      ∧ (alookup (processEntries now es) "WELCOMETONATIONDEX" = none →
          alookup (load_promocodes_from_file true s lastLoad now (.obj es)).store
            "WELCOMETONATIONDEX" = some welcomePromo) := by
  unfold load_promocodes_from_file
  rw [if_neg (by simp)]
  unfold finishLoad
  try dsimp only
  have hne : ("WELCOMETOPLEASUREDOME" : String) ≠ "WELCOMETONATIONDEX" := by decide
  constructor
  · by_cases hw : (alookup (processEntries now es) "WELCOMETONATIONDEX").isSome
    · rw [if_pos hw]
      split
      · rw [alookup_ainsert_ne hne]
        exact hw
      · exact hw
    · rw [if_neg hw]
      split
      · rw [alookup_ainsert_ne hne, alookup_ainsert]
        rfl
      · rw [alookup_ainsert]
        rfl
  · intro hnone
    rw [hnone]
    simp only [Option.isSome_none, Bool.false_eq_true, if_false]
    have hne2 : ("WELCOMETONATIONDEX" : String) ≠ "WELCOMETOPLEASUREDOME" := by decide
    rw [if_neg ?hcond]
    case hcond =>
      intro hcond
      have h2 := hcond.2
      rw [alookup_ainsert_ne hne2] at h2
      have h1 := hcond.1
      rw [Option.isNone_iff_eq_none] at h2
      rw [h2] at h1
      simp at h1
    rw [alookup_ainsert]

/-- Claim C7, witness: a forced reload of an empty object file ends
with the synthesized default record present. -/
theorem claim_C7_amended_witness :
    alookup (load_promocodes_from_file true [] 0 0 (.obj [])).store "WELCOMETONATIONDEX"
      = some welcomePromo :=
  (claim_C7_amended [] 0 0 []).2 (by decide)

/-- A raw file entry with a valid expiry and rewards but no uses_left
key: the claim says reload keeps it with uses_left defaulted to 0. -/
def rawMissingUses : RawEntry :=
  { expiry := some (.rstr (some 100))
    rewards := some (.robj defaultRewards) }

/-- Claim C6, counterexample: a persisted entry that merely lacks the
uses_left key is dropped entirely by the reconstruction (the
required-field check at source line 372), not kept with uses_left = 0
as the claim states. -/
theorem claim_C6_counterexample : processEntry 0 rawMissingUses = none := by decide

/-- Claim C6, amended: entries missing any of the required keys expiry,
uses_left, rewards are dropped; every other entry is reconstructed
field by field with defaults for present-but-invalid values: an
unparsable or non-string expiry becomes the default fixed date, a
non-numeric uses_left becomes 0, an invalid used_by becomes the empty
set, an invalid rewards becomes the null default pair; and usage
history entries whose timestamps do not parse are retained with the raw
value rather than skipped (only the conversion is skipped), so every
raw history element maps to exactly one reconstructed element. -/
theorem claim_C6_amended (now : Int) (r : RawEntry) :
    ((r.expiry.isNone ∨ r.uses_left.isNone ∨ r.rewards.isNone) → processEntry now r = none)
      ∧ (r.expiry.isSome → r.uses_left.isSome → r.rewards.isSome →
          (processEntry now r).isSome = true
            ∧ ((r.expiry = some .rother ∨ r.expiry = some (.rstr none)) →
                (processEntry now r).map Promo.expiry = some (some (.dt DEFAULT_EXPIRY)))
            ∧ (r.uses_left = some .rother →
                (processEntry now r).map Promo.uses_left = some (some 0))
            ∧ ((r.used_by = none ∨ r.used_by = some .rother) →
                (processEntry now r).map Promo.used_by = some (.set []))
            ∧ (r.rewards = some .rother →
                (processEntry now r).map Promo.rewards = some (some defaultRewards)))
      ∧ (∀ l : List RawHistEntry,
          processHistV (.rlist l) = .lst (l.map processHistEntry)
            ∧ (l.map processHistEntry).length = l.length) := by
  refine ⟨?_, ?_, ?_⟩
  · intro h
    unfold processEntry
    rw [if_pos h]
  · intro h1 h2 h3
    have hreq : ¬(r.expiry.isNone ∨ r.uses_left.isNone ∨ r.rewards.isNone) := by
      simp only [Option.isNone_iff_eq_none]
      push_neg
      refine ⟨?_, ?_, ?_⟩
      · intro hx; rw [hx] at h1; simp at h1
      · intro hx; rw [hx] at h2; simp at h2
      · intro hx; rw [hx] at h3; simp at h3
    refine ⟨?_, ?_, ?_, ?_, ?_⟩
    · unfold processEntry
      rw [if_neg hreq]
      rfl
    · intro hx
      unfold processEntry
      rw [if_neg hreq]
      rcases hx with hx | hx <;> rw [hx] <;> rfl
    · intro hx
      unfold processEntry
      rw [if_neg hreq]
      rw [hx]
      rfl
    · intro hx
      unfold processEntry
      rw [if_neg hreq]
      rcases hx with hx | hx <;> rw [hx] <;> rfl
    · intro hx
      unfold processEntry
      rw [if_neg hreq]
      rw [hx]
      rfl
  · intro l
    exact ⟨rfl, List.length_map l processHistEntry⟩

/-- A raw file entry whose expiry, uses_left, rewards and used_by are
all present but hold values of the wrong type. -/
def rawAllInvalid : RawEntry :=
  { expiry := some .rother
    uses_left := some .rother
    rewards := some .rother
    used_by := some .rother }

/-- Claim C6, witness: the all-invalid entry is kept, with the default
expiry and a zero uses_left. -/
theorem claim_C6_amended_witness :
    (processEntry 3 rawAllInvalid).isSome = true
      ∧ (processEntry 3 rawAllInvalid).map Promo.uses_left = some (some 0)
      ∧ (processEntry 3 rawAllInvalid).map Promo.expiry
          = some (some (.dt DEFAULT_EXPIRY)) := by
  have h := (claim_C6_amended 3 rawAllInvalid).2.1 (by decide) (by decide) (by decide)
  exact ⟨h.1, h.2.2.1 rfl, h.2.1 (Or.inl rfl)⟩
